import Mathlib

/-!
Verification of the ClaraVerse persistent document queue
(`py_backend/document_queue.py`) and its startup reconciliation pass
(`cleanup_stuck_documents` in `py_backend/main.py`).

The SQLite `jobs` table is embedded as a list of `Job` records in insertion
order.  Every SQL statement of the source is translated to a pure function on
that list; `CURRENT_TIMESTAMP` / `datetime('now', ...)` become an explicit
`now : Nat` argument (seconds), and `datetime('now', '-t seconds')` / day
cut-offs become the integer comparisons `s + t < now` and
`ts + days * 86400 < now`.  A SQL `UPDATE ... WHERE id = ?` updates every row
whose `id` matches; `fetchone` after a `SELECT ... WHERE id = ?` is
`List.find?`.  NULL columns are `Option` fields, and a NULL comparison in a
`WHERE` clause is false, as in SQLite.
-/

namespace DocQueue

/-- One row of the `jobs` table (schema in `DocumentQueue._init_db`). -/
structure Job where
  id : String
  notebook_id : String
  document_id : String
  content : String
  status : String
  priority : Int
  retry_count : Nat
  max_retries : Nat
  created_at : Nat
  started_at : Option Nat
  completed_at : Option Nat
  failed_at : Option Nat
  error : Option String
deriving Repr, DecidableEq

/-- The persistent store: rows of the `jobs` table in insertion order. -/
abbrev Store := List Job

/-- `UPDATE jobs SET ... WHERE id = ?`: apply `f` to every row whose id
matches (`id` is the PRIMARY KEY, so at most one row in a well-formed store). -/
def updateById (st : Store) (jid : String) (f : Job → Job) : Store :=
  st.map (fun j => if j.id == jid then f j else j)

/-- `DocumentQueue.enqueue`: INSERT a fresh row with status `'queued'`,
`retry_count` 0, `max_retries` 2 (the schema defaults) and
`created_at = CURRENT_TIMESTAMP`.  `id` is the PRIMARY KEY, so an INSERT with
a duplicate id raises and leaves the table unchanged. -/
def enqueue (st : Store) (jid notebook_id document_id content : String)
    (priority : Int) (now : Nat) : Store :=
  if st.any (fun j => j.id == jid) then st
  else st ++ [{ id := jid, notebook_id := notebook_id,
                document_id := document_id, content := content,
                status := "queued", priority := priority,
                retry_count := 0, max_retries := 2, created_at := now,
                started_at := none, completed_at := none, failed_at := none,
                error := none }]

/-- The row update of `mark_processing`:
`SET status = 'processing', started_at = CURRENT_TIMESTAMP`. -/
def procUpdate (now : Nat) (j : Job) : Job :=
  { j with status := "processing", started_at := some now }

/-- `DocumentQueue.mark_processing`. -/
def mark_processing (st : Store) (jid : String) (now : Nat) : Store :=
  updateById st jid (procUpdate now)

/-- The row update of `mark_completed`:
`SET status = 'completed', completed_at = CURRENT_TIMESTAMP, error = NULL`. -/
def compUpdate (now : Nat) (j : Job) : Job :=
  { j with status := "completed", completed_at := some now, error := none }

/-- `DocumentQueue.mark_completed`. -/
def mark_completed (st : Store) (jid : String) (now : Nat) : Store :=
  updateById st jid (compUpdate now)

/-- The annotated error written on a requeued retry. -/
def retryMsg (k n : Nat) (error : String) : String :=
  "Retry " ++ toString k ++ "/" ++ toString n ++ ": " ++ error

/-- The terminal error written when the retry budget is exhausted. -/
def terminalMsg (n : Nat) (error : String) : String :=
  "Failed after " ++ toString n ++ " retries: " ++ error

/-- The row update of `mark_failed`'s requeue branch; `k`/`n` come from the
SELECTed row. -/
def retryUpdate (k n : Nat) (error : String) (j : Job) : Job :=
  { j with status := "queued", retry_count := j.retry_count + 1,
           error := some (retryMsg k n error) }

/-- The row update of `mark_failed`'s terminal branch; `n` comes from the
SELECTed row. -/
def failUpdate (n : Nat) (error : String) (now : Nat) (j : Job) : Job :=
  { j with status := "failed", failed_at := some now,
           error := some (terminalMsg n error) }

/-- `DocumentQueue.mark_failed`: SELECT the row, then either requeue with an
incremented `retry_count` (when `retry_count < max_retries`) or mark the job
permanently failed.  A missing id is a silent no-op. -/
def mark_failed (st : Store) (jid error : String) (now : Nat) : Store :=
  match st.find? (fun j => j.id == jid) with
  | none => st
  | some row =>
    if row.retry_count < row.max_retries then
      updateById st jid
        (retryUpdate (row.retry_count + 1) row.max_retries error)
    else
      updateById st jid (failUpdate row.max_retries error now)

/-- The six columns `get_next_job` SELECTs and returns as a dict. -/
structure NextJob where
  job_id : String
  notebook_id : String
  document_id : String
  content : String
  retry_count : Nat
  max_retries : Nat
deriving Repr, DecidableEq

/-- Projection of a row onto the dict returned by `get_next_job`. -/
def toNextJob (j : Job) : NextJob :=
  { job_id := j.id, notebook_id := j.notebook_id,
    document_id := j.document_id, content := j.content,
    retry_count := j.retry_count, max_retries := j.max_retries }

/-- `ORDER BY priority DESC, created_at ASC`: `a` sorts strictly before `b`. -/
def better (a b : Job) : Bool :=
  a.priority > b.priority ||
    (a.priority == b.priority && a.created_at < b.created_at)

/-- `LIMIT 1` of the ordered scan: the row that no other row sorts strictly
before (first such row in table order). -/
def pickBest (l : List Job) : Option Job :=
  l.foldl
    (fun acc j =>
      match acc with
      | none => some j
      | some b => if better j b then some j else some b)
    none

/-- The row `get_next_job` selects (`WHERE status = 'queued'` plus the ordered
`LIMIT 1`). -/
def get_next_row (st : Store) : Option Job :=
  pickBest (st.filter (fun j => j.status == "queued"))

/-- `DocumentQueue.get_next_job`: the selected row projected onto the returned
dict; `none` when no row is queued.  Read-only: the store is not changed. -/
def get_next_job (st : Store) : Option NextJob :=
  (get_next_row st).map toNextJob

/-- Rows recovered in startup mode (`timeout_seconds is None`):
`WHERE status = 'processing'`. -/
def recoverAllPred (j : Job) : Bool :=
  j.status == "processing"

/-- Rows recovered in timer mode: `WHERE status = 'processing' AND
started_at < datetime('now', '-timeout seconds')`; a NULL `started_at`
compares false. -/
def recoverStuckPred (t now : Nat) (j : Job) : Bool :=
  j.status == "processing" &&
    (match j.started_at with
     | some s => decide (s + t < now)
     | none => false)

/-- `DocumentQueue.recover_stuck_jobs`: requeue matching rows with the mode's
error annotation and return the updated store together with `cursor.rowcount`. -/
def recover_stuck_jobs (st : Store) (timeout_seconds : Option Nat)
    (now : Nat) : Store × Nat :=
  match timeout_seconds with
  | none =>
    (st.map (fun j =>
        if recoverAllPred j then
          { j with status := "queued",
                   error := some "Recovered from server restart" }
        else j),
     st.countP recoverAllPred)
  | some t =>
    (st.map (fun j =>
        if recoverStuckPred t now j then
          { j with status := "queued",
                   error := some "Recovered from stuck state" }
        else j),
     st.countP (recoverStuckPred t now))

/-- `ts < datetime('now', '-days days')` for an optional column; NULL is false. -/
def oldTs (days now : Nat) : Option Nat → Bool
  | some ts => decide (ts + days * 86400 < now)
  | none => false

/-- The DELETE predicate of `clear_old_jobs`: terminal status AND
(`completed_at` older than the cut-off OR `failed_at` older than the cut-off). -/
def clearPred (days now : Nat) (j : Job) : Bool :=
  (j.status == "completed" || j.status == "failed") &&
    (oldTs days now j.completed_at || oldTs days now j.failed_at)

/-- `DocumentQueue.clear_old_jobs`: delete matching rows, return the surviving
store and `cursor.rowcount`. -/
def clear_old_jobs (st : Store) (days now : Nat) : Store × Nat :=
  (st.filter (fun j => !clearPred days now j), st.countP (clearPred days now))

/-- Python `x or default` on an optional string: `None` and `""` are falsy. -/
def pyOr (x : Option String) (default : String) : String :=
  match x with
  | some s => if s == "" then default else s
  | none => default

/-- The verification branch of `DocumentQueue._worker_loop` (lines 382-402),
entered after the processing callback returns normally.  `check` is `none`
when no `status_checker_func` is registered, otherwise the
`(status, error_message)` pair the checker returned for the document. -/
def worker_verify (st : Store) (jid : String)
    (check : Option (String × Option String)) (now : Nat) : Store :=
  match check with
  | none => mark_completed st jid now
  | some (doc_status, error_message) =>
    if doc_status == "completed" then
      mark_completed st jid now
    else if doc_status == "failed" then
      mark_failed st jid (pyOr error_message "Document processing failed") now
    else
      mark_failed st jid
        ("Document status is \x27" ++ doc_status ++
          "\x27 after processing - expected \x27completed\x27 or \x27failed\x27")
        now

/-- One entry of the external document-status ledger (`documents.json` in
`main.py`), restricted to the fields `cleanup_stuck_documents` reads/writes. -/
structure DocEntry where
  doc_id : String
  filename : String
  status : String
  error : Option String
  failed_at : Option Nat
deriving Repr, DecidableEq

/-- `SELECT status, error FROM jobs WHERE document_id = ? ORDER BY created_at
DESC LIMIT 1`: the most recent job row for the document. -/
def latest_job (st : Store) (docId : String) : Option Job :=
  (st.filter (fun j => j.document_id == docId)).foldl
    (fun acc j =>
      match acc with
      | none => some j
      | some b => if j.created_at > b.created_at then some j else some b)
    none

/-- Ledger message for a completed job whose ledger write never landed. -/
def staleLedgerMsg : String :=
  "Processing completed but document status wasn\x27t updated " ++
    "(possible silent error). Please retry."

/-- Ledger message when no queue job exists for a stuck document. -/
def noRecordMsg : String :=
  "No queue job found - server may have crashed during upload"

/-- How `cleanup_stuck_documents` rewrites one ledger entry stuck in
`processing`, given the most recent queue job for its document. -/
def reconcileEntry (d : DocEntry) (job : Option Job) (now : Nat) : DocEntry :=
  match job with
  | some j =>
    if j.status == "completed" then
      { d with status := "failed", error := some staleLedgerMsg,
               failed_at := some now }
    else if j.status == "failed" then
      { d with status := "failed", error := some (pyOr j.error "Unknown error"),
               failed_at := some now }
    else d
  | none =>
    { d with status := "failed", error := some noRecordMsg,
             failed_at := some now }

/-- `cleanup_stuck_documents` (main.py): for every ledger entry whose status
is `processing`, reconcile it against the most recent queue job for its
document; all other entries are untouched. -/
def cleanup_stuck_documents (ledger : List DocEntry) (jobs : Store)
    (now : Nat) : List DocEntry :=
  ledger.map (fun d =>
    if d.status == "processing" then reconcileEntry d (latest_job jobs d.doc_id) now
    else d)

/-- Queue operations, for stating invariants over arbitrary call sequences. -/
inductive Op where
  | enq (jid notebook_id document_id content : String) (priority : Int) (now : Nat)
  | mproc (jid : String) (now : Nat)
  | mcomp (jid : String) (now : Nat)
  | mfail (jid error : String) (now : Nat)
  | recover (timeout_seconds : Option Nat) (now : Nat)
  | clear (days now : Nat)
deriving Repr

/-- Apply one queue operation to the store. -/
def applyOp (st : Store) : Op → Store
  | .enq jid nb doc c p now => enqueue st jid nb doc c p now
  | .mproc jid now => mark_processing st jid now
  | .mcomp jid now => mark_completed st jid now
  | .mfail jid e now => mark_failed st jid e now
  | .recover t now => (recover_stuck_jobs st t now).1
  | .clear days now => (clear_old_jobs st days now).1

/-- Run a sequence of queue operations from a starting store. -/
def run (st : Store) (ops : List Op) : Store :=
  ops.foldl applyOp st

/-- Row ids are pairwise distinct (`id` is the PRIMARY KEY). -/
def UniqueIds (st : Store) : Prop :=
  st.Pairwise (fun a b => a.id ≠ b.id)

/-- The status of the row with the given id, if any. -/
def statusOf (st : Store) (jid : String) : Option String :=
  (st.find? (fun x => x.id == jid)).map Job.status

/-! ### General lemmas about the store embedding -/

theorem eq_of_mem_of_mem_of_uniqueIds {st : Store} {a b : Job}
    (hu : UniqueIds st) (ha : a ∈ st) (hb : b ∈ st) (hid : a.id = b.id) :
    a = b := by
  induction st with
  | nil => cases ha
  | cons x t ih =>
    rcases List.pairwise_cons.mp hu with ⟨hx, ht⟩
    rcases List.mem_cons.mp ha with rfl | ha' <;>
      rcases List.mem_cons.mp hb with h | hb'
    · exact h.symm
    · exact absurd hid (hx _ hb')
    · exact absurd hid.symm (h ▸ hx _ ha')
    · exact ih ht ha' hb'

theorem find?_id_of_uniqueIds {st : Store} {j : Job} {jid : String}
    (hu : UniqueIds st) (hj : j ∈ st) (hid : j.id = jid) :
    st.find? (fun x => x.id == jid) = some j := by
  induction st with
  | nil => cases hj
  | cons x t ih =>
    rcases List.pairwise_cons.mp hu with ⟨hx, ht⟩
    rcases List.mem_cons.mp hj with rfl | hj'
    · simp [List.find?, hid]
    · have hne : ¬(x.id == jid) := by
        simpa [hid] using hx _ hj'
      simp only [List.find?, Bool.not_eq_true] at hne ⊢
      rw [hne]
      exact ih ht hj'

theorem find?_updateById_self (f : Job → Job) {st : Store} {j : Job}
    {jid : String} (hu : UniqueIds st) (hj : j ∈ st) (hid : j.id = jid)
    (hpres : ∀ x, (f x).id = x.id) :
    (updateById st jid f).find? (fun x => x.id == jid) = some (f j) := by
  induction st with
  | nil => cases hj
  | cons x t ih =>
    rcases List.pairwise_cons.mp hu with ⟨hx, ht⟩
    rcases List.mem_cons.mp hj with rfl | hj'
    · simp [updateById, List.find?_cons_of_pos, hid, hpres]
    · have hne : ¬(x.id = jid) := by
        simpa [hid] using hx _ hj'
      have hne' : (x.id == jid) = false := by
        simpa using hne
      simp only [updateById, List.map_cons, hne', Bool.false_eq_true, if_false]
      rw [List.find?_cons_of_neg _ (by simp [hne])]
      exact ih ht hj'

theorem updateById_id_of_absent {st : Store} {jid : String} {f : Job → Job}
    (h : ∀ j ∈ st, j.id ≠ jid) : updateById st jid f = st := by
  unfold updateById
  rw [List.map_congr_left, List.map_id]
  intro a ha
  simp [h a ha]

theorem forall2_map {α β : Type} (R : α → β → Prop) (f : α → β)
    (l : List α) (h : ∀ a ∈ l, R a (f a)) : List.Forall₂ R l (l.map f) := by
  induction l with
  | nil => exact List.Forall₂.nil
  | cons x t ih =>
    exact List.Forall₂.cons (h x (List.mem_cons_self x t))
      (ih fun a ha => h a (List.mem_cons_of_mem x ha))

theorem countP_add_countP_not {α : Type} (p : α → Bool) (l : List α) :
    l.countP p + l.countP (fun a => !p a) = l.length := by
  induction l with
  | nil => simp
  | cons x t ih =>
    by_cases hx : p x
    · simp [List.countP_cons, hx]
      omega
    · simp [List.countP_cons, hx]
      omega

/-- A sample freshly enqueued row, used to instantiate theorems. -/
def jobA : Job :=
  { id := "j1", notebook_id := "nb", document_id := "d", content := "c",
    status := "queued", priority := 0, retry_count := 0, max_retries := 2,
    created_at := 0, started_at := none, completed_at := none,
    failed_at := none, error := none }

/-- A sample one-row store. -/
def stA : Store := [jobA]

/-! ### Claim theorems -/

/-- C1: for a job present in the store, `mark_failed` with the job's current
`retry_count` strictly below `max_retries` requeues it with `retry_count`
incremented by one and error `"Retry k/N: <error>"` where `k` is the new
`retry_count` and `N` is `max_retries`; otherwise it marks the job `failed`,
stamps `failed_at = now` and writes the terminal message.  The record-update
form of the conclusion shows no other field changes in either branch, and
rows with a different id are untouched. -/
theorem C1_mark_failed_correct (st : Store) (jid err : String) (now : Nat)
    (j : Job) (hu : UniqueIds st) (hj : j ∈ st) (hid : j.id = jid) :
    (j.retry_count < j.max_retries →
      List.Forall₂ (fun x x' =>
        (x.id = jid → x' = { x with status := "queued",
                                    retry_count := x.retry_count + 1,
                                    error := some (retryMsg (j.retry_count + 1)
                                      j.max_retries err) }) ∧
        (x.id ≠ jid → x' = x)) st (mark_failed st jid err now)) ∧
    (j.max_retries ≤ j.retry_count →
      List.Forall₂ (fun x x' =>
        (x.id = jid → x' = { x with status := "failed", failed_at := some now,
                                    error := some (terminalMsg j.max_retries
                                      err) }) ∧
        (x.id ≠ jid → x' = x)) st (mark_failed st jid err now)) := by
  have hfind : st.find? (fun x => x.id == jid) = some j :=
    find?_id_of_uniqueIds hu hj hid
  constructor
  · intro hlt
    unfold mark_failed
    rw [hfind]
    dsimp only
    rw [if_pos hlt]
    apply forall2_map
    intro a _
    refine ⟨fun haid => ?_, fun haid => ?_⟩
    · simp [haid, retryUpdate]
    · simp [haid]
  · intro hge
    unfold mark_failed
    rw [hfind]
    dsimp only
    rw [if_neg (by omega)]
    apply forall2_map
    intro a _
    refine ⟨fun haid => ?_, fun haid => ?_⟩
    · simp [haid, failUpdate]
    · simp [haid]

/-- C1 witness: the theorem instantiated at a concrete one-row store. -/
theorem C1_mark_failed_correct_witness :
    (jobA.retry_count < jobA.max_retries →
      List.Forall₂ (fun x x' =>
        (x.id = "j1" → x' = { x with status := "queued",
                                     retry_count := x.retry_count + 1,
                                     error := some (retryMsg
                                       (jobA.retry_count + 1)
                                       jobA.max_retries "boom") }) ∧
        (x.id ≠ "j1" → x' = x)) stA (mark_failed stA "j1" "boom" 7)) ∧
    (jobA.max_retries ≤ jobA.retry_count →
      List.Forall₂ (fun x x' =>
        (x.id = "j1" → x' = { x with status := "failed",
                                     failed_at := some 7,
                                     error := some (terminalMsg
                                       jobA.max_retries "boom") }) ∧
        (x.id ≠ "j1" → x' = x)) stA (mark_failed stA "j1" "boom" 7)) :=
  C1_mark_failed_correct stA "j1" "boom" 7 jobA
    (by simp [UniqueIds, stA]) (by simp [stA]) rfl

/-- C6 counterexample: `mark_completed` stamps `completed_at` with
`CURRENT_TIMESTAMP` unconditionally, so a second call at time 9 overwrites
the first call's timestamp 5 — the claimed first-call-wins semantics fails. -/
theorem C6_counterexample :
    ((mark_completed (mark_completed (enqueue [] "j1" "nb" "d" "c" 0 0)
        "j1" 5) "j1" 9).find? (fun x => x.id == "j1")).map
      Job.completed_at = some (some 9) ∧
    ((mark_completed (enqueue [] "j1" "nb" "d" "c" 0 0) "j1" 5).find?
        (fun x => x.id == "j1")).map Job.completed_at = some (some 5) ∧
    statusOf (mark_completed (mark_completed (enqueue [] "j1" "nb" "d" "c"
      0 0) "j1" 5) "j1" 9) "j1" = some "completed" := by
  refine ⟨rfl, rfl, rfl⟩

/-- C6 amended: calling `mark_completed` twice leaves the job `completed`
with `error` cleared, but `completed_at` carries the SECOND call's timestamp
(last-call-wins), and no other field or row changes. -/
theorem C6_mark_completed_twice (st : Store) (jid : String) (t1 t2 : Nat) :
    List.Forall₂ (fun x x' =>
      (x.id = jid → x' = { x with status := "completed",
                                  completed_at := some t2, error := none }) ∧
      (x.id ≠ jid → x' = x)) st
      (mark_completed (mark_completed st jid t1) jid t2) := by
  unfold mark_completed updateById
  rw [List.map_map]
  apply forall2_map
  intro a _
  refine ⟨fun haid => ?_, fun haid => ?_⟩
  · simp [Function.comp, haid, compUpdate]
  · simp [Function.comp, haid]

/-- C6 amended witness: the amended theorem at a concrete one-row store. -/
theorem C6_mark_completed_twice_witness :
    List.Forall₂ (fun x x' =>
      (x.id = "j1" → x' = { x with status := "completed",
                                   completed_at := some 9, error := none }) ∧
      (x.id ≠ "j1" → x' = x)) stA
      (mark_completed (mark_completed stA "j1" 5) "j1" 9) :=
  C6_mark_completed_twice stA "j1" 5 9

/-- C10: `mark_processing`, `mark_completed` and `mark_failed` with an id not
present in the store are silent no-ops — the UPDATE matches no row and
`mark_failed`'s SELECT returns no row, so the store is unchanged and nothing
is raised. -/
theorem C10_missing_id_noop (st : Store) (jid err : String) (now : Nat)
    (h : ∀ j ∈ st, j.id ≠ jid) :
    mark_processing st jid now = st ∧ mark_completed st jid now = st ∧
      mark_failed st jid err now = st := by
  refine ⟨updateById_id_of_absent h, updateById_id_of_absent h, ?_⟩
  unfold mark_failed
  have hnone : st.find? (fun x => x.id == jid) = none := by
    rw [List.find?_eq_none]
    intro x hx
    simp [h x hx]
  rw [hnone]

/-- C10 witness: the no-op theorem at a concrete store and a fresh id. -/
theorem C10_missing_id_noop_witness :
    mark_processing stA "zz" 5 = stA ∧ mark_completed stA "zz" 5 = stA ∧
      mark_failed stA "zz" "e" 5 = stA :=
  C10_missing_id_noop stA "zz" "e" 5 (by decide)

theorem statusOf_mark_completed {st : Store} {j : Job} {jid : String}
    (hu : UniqueIds st) (hj : j ∈ st) (hid : j.id = jid) (now : Nat) :
    statusOf (mark_completed st jid now) jid = some "completed" := by
  unfold statusOf mark_completed
  rw [find?_updateById_self (compUpdate now) hu hj hid (fun x => rfl)]
  rfl

theorem statusOf_mark_failed {st : Store} {j : Job} {jid : String}
    (hu : UniqueIds st) (hj : j ∈ st) (hid : j.id = jid) (err : String)
    (now : Nat) :
    statusOf (mark_failed st jid err now) jid = some "queued" ∨
      statusOf (mark_failed st jid err now) jid = some "failed" := by
  have hfind : st.find? (fun x => x.id == jid) = some j :=
    find?_id_of_uniqueIds hu hj hid
  unfold statusOf mark_failed
  rw [hfind]
  dsimp only
  by_cases hlt : j.retry_count < j.max_retries
  · rw [if_pos hlt, find?_updateById_self
        (retryUpdate (j.retry_count + 1) j.max_retries err) hu hj hid
        (fun x => rfl)]
    exact Or.inl rfl
  · rw [if_neg hlt, find?_updateById_self
        (failUpdate j.max_retries err now) hu hj hid (fun x => rfl)]
    exact Or.inr rfl

/-- C2: after the processing callback returns normally, the job ends
`completed` exactly when the registered verification callback reported
`completed` (`check = some ("completed", _)`); any other reported status
routes through `mark_failed`, so the stored status becomes `queued` or
`failed`, never `completed`.  With no verification callback registered
(`check = none`), `mark_completed` runs unconditionally. -/
theorem C2_worker_verify (st : Store) (jid : String)
    (check : Option (String × Option String)) (now : Nat) (j : Job)
    (hu : UniqueIds st) (hj : j ∈ st) (hid : j.id = jid) :
    (statusOf (worker_verify st jid check now) jid = some "completed" ↔
      (check = none ∨ ∃ e, check = some ("completed", e))) := by
  cases check with
  | none =>
    simp only [worker_verify]
    constructor
    · intro _
      simp
    · intro _
      exact statusOf_mark_completed hu hj hid now
  | some pair =>
    obtain ⟨s, e⟩ := pair
    simp only [worker_verify]
    by_cases hs : s = "completed"
    · rw [if_pos (by simp [hs])]
      subst hs
      constructor
      · intro _
        exact Or.inr ⟨e, rfl⟩
      · intro _
        exact statusOf_mark_completed hu hj hid now
    · rw [if_neg (by simp [hs])]
      constructor
      · intro hcomp
        exfalso
        by_cases hf : s = "failed"
        · rw [if_pos (by simp [hf])] at hcomp
          rcases statusOf_mark_failed hu hj hid
              (pyOr e "Document processing failed") now with h | h <;>
            rw [h] at hcomp <;> simp at hcomp
        · rw [if_neg (by simp [hf])] at hcomp
          rcases statusOf_mark_failed hu hj hid
              ("Document status is \x27" ++ s ++
                "\x27 after processing - expected \x27completed\x27 or \x27failed\x27")
              now with h | h <;>
            rw [h] at hcomp <;> simp at hcomp
      · rintro (h | ⟨e', h⟩)
        · exact absurd h (by simp)
        · simp only [Option.some.injEq, Prod.mk.injEq] at h
          exact absurd h.1 hs

/-- C2 witness: a verification mismatch (`failed` reported) at a concrete
one-row store does not leave the job `completed`. -/
theorem C2_worker_verify_witness :
    statusOf (worker_verify stA "j1" (some ("failed", some "errx")) 5) "j1" =
        some "completed" ↔
      (some ("failed", some "errx") = none ∨
        ∃ e, (some ("failed", some "errx") :
          Option (String × Option String)) = some ("completed", e)) :=
  C2_worker_verify stA "j1" (some ("failed", some "errx")) 5 jobA
    (by simp [UniqueIds, stA]) (by simp [stA]) rfl

/-- Every job's retry budget is respected: `retry_count ≤ max_retries`. -/
def RetryInv (st : Store) : Prop :=
  ∀ j ∈ st, j.retry_count ≤ j.max_retries

theorem uniqueIds_map_presId {st : Store} (g : Job → Job)
    (hg : ∀ x, (g x).id = x.id) (hu : UniqueIds st) :
    UniqueIds (st.map g) := by
  unfold UniqueIds at *
  rw [List.pairwise_map]
  exact hu.imp (fun {a b} hab => by rw [hg, hg]; exact hab)

theorem retryInv_map_presCounts {st : Store} (g : Job → Job)
    (hg : ∀ x, (g x).retry_count = x.retry_count ∧
      (g x).max_retries = x.max_retries)
    (hr : RetryInv st) : RetryInv (st.map g) := by
  intro j hjmem
  rcases List.mem_map.mp hjmem with ⟨a, ha, rfl⟩
  rw [(hg a).1, (hg a).2]
  exact hr a ha

theorem uniqueIds_enqueue {st : Store} {jid nb doc c : String} {p : Int}
    {now : Nat} (hu : UniqueIds st) :
    UniqueIds (enqueue st jid nb doc c p now) := by
  unfold enqueue
  split
  · exact hu
  · next h =>
    unfold UniqueIds
    rw [List.pairwise_append]
    refine ⟨hu, List.pairwise_singleton _ _, ?_⟩
    intro a ha b hb
    rw [List.mem_singleton] at hb
    subst hb
    have hne : ¬ (a.id == jid) = true := by
      intro hx
      exact h (List.any_eq_true.mpr ⟨a, ha, hx⟩)
    simpa using hne

theorem retryInv_enqueue {st : Store} {jid nb doc c : String} {p : Int}
    {now : Nat} (hr : RetryInv st) :
    RetryInv (enqueue st jid nb doc c p now) := by
  unfold enqueue
  split
  · exact hr
  · intro j hj
    rcases List.mem_append.mp hj with h | h
    · exact hr j h
    · rw [List.mem_singleton] at h
      subst h
      exact Nat.zero_le _

theorem retryInv_mark_failed {st : Store} (hu : UniqueIds st)
    (hr : RetryInv st) (jid err : String) (now : Nat) :
    RetryInv (mark_failed st jid err now) := by
  unfold mark_failed
  cases hfind : st.find? (fun x => x.id == jid) with
  | none => exact hr
  | some row =>
    have hrowmem : row ∈ st := List.mem_of_find?_eq_some hfind
    have hrowid : (row.id == jid) = true := by
      simpa using List.find?_some hfind
    dsimp only
    split
    · next hlt =>
      intro j hjmem
      rcases List.mem_map.mp (by simpa [updateById] using hjmem)
        with ⟨a, ha, rfl⟩
      by_cases h : a.id = jid
      · have haeq : a = row := eq_of_mem_of_mem_of_uniqueIds hu ha hrowmem
          (h.trans (beq_iff_eq.mp hrowid).symm)
        subst haeq
        rw [if_pos h]
        simp only [retryUpdate]
        omega
      · rw [if_neg h]
        exact hr a ha
    · next hge =>
      exact retryInv_map_presCounts _
        (fun x => by by_cases h : (x.id == jid) = true <;>
          simp [h, failUpdate]) hr

theorem applyOp_inv (st : Store) (op : Op) (hu : UniqueIds st)
    (hr : RetryInv st) : UniqueIds (applyOp st op) ∧ RetryInv (applyOp st op) := by
  cases op with
  | enq jid nb doc c p now =>
    exact ⟨uniqueIds_enqueue hu, retryInv_enqueue hr⟩
  | mproc jid now =>
    refine ⟨uniqueIds_map_presId _ ?_ hu, retryInv_map_presCounts _ ?_ hr⟩ <;>
      intro x <;> by_cases h : (x.id == jid) = true <;> simp [h, procUpdate]
  | mcomp jid now =>
    refine ⟨uniqueIds_map_presId _ ?_ hu, retryInv_map_presCounts _ ?_ hr⟩ <;>
      intro x <;> by_cases h : (x.id == jid) = true <;> simp [h, compUpdate]
  | mfail jid e now =>
    refine ⟨?_, retryInv_mark_failed hu hr jid e now⟩
    show UniqueIds (mark_failed st jid e now)
    unfold mark_failed
    cases st.find? (fun x => x.id == jid) with
    | none => exact hu
    | some row =>
      dsimp only
      split <;>
        exact uniqueIds_map_presId _
          (fun x => by by_cases h : (x.id == jid) = true <;>
            simp [h, retryUpdate, failUpdate]) hu
  | recover t now =>
    cases t with
    | none =>
      refine ⟨uniqueIds_map_presId _ ?_ hu, retryInv_map_presCounts _ ?_ hr⟩ <;>
        intro x <;> by_cases h : recoverAllPred x = true <;> simp [h]
    | some ts =>
      refine ⟨uniqueIds_map_presId _ ?_ hu, retryInv_map_presCounts _ ?_ hr⟩ <;>
        intro x <;> by_cases h : recoverStuckPred ts now x = true <;> simp [h]
  | clear days now =>
    constructor
    · exact List.Pairwise.sublist (List.filter_sublist st) hu
    · intro j hj
      exact hr j (List.mem_of_mem_filter hj)

theorem run_inv (ops : List Op) (st : Store) (hu : UniqueIds st)
    (hr : RetryInv st) : UniqueIds (run st ops) ∧ RetryInv (run st ops) := by
  induction ops generalizing st with
  | nil => exact ⟨hu, hr⟩
  | cons op ops ih =>
    have h := applyOp_inv st op hu hr
    exact ih (applyOp st op) h.1 h.2

/-- C3 counterexample: after two `mark_failed` calls on a freshly enqueued
job (`max_retries = 2`), `retry_count` has just reached `max_retries` but the
job is `queued`, not `failed` — the requeue branch fires while
`retry_count < max_retries`, so the first moment of equality is a requeue. -/
theorem C3_counterexample :
    ¬ (∀ j ∈ mark_failed (mark_failed (enqueue [] "j1" "nb" "d" "c" 0 0)
          "j1" "e" 1) "j1" "e" 2,
        j.retry_count = j.max_retries → j.status = "failed") := by
  decide

/-- C3 amended: over every sequence of queue operations from an empty store,
`retry_count` never exceeds `max_retries`; and once `retry_count` has reached
`max_retries`, a further `mark_failed` marks the job terminally `failed`
without incrementing `retry_count`.  (At the first moment of equality the job
is requeued, contrary to the original claim; it turns `failed` only on the
next failure.) -/
theorem C3_retry_bound :
    (∀ ops : List Op, ∀ j ∈ run [] ops, j.retry_count ≤ j.max_retries) ∧
    (∀ (st : Store) (jid err : String) (now : Nat) (j : Job),
      UniqueIds st → j ∈ st → j.id = jid → j.max_retries ≤ j.retry_count →
      List.Forall₂ (fun x x' =>
        (x.id = jid → x' = { x with status := "failed",
                                    failed_at := some now,
                                    error := some (terminalMsg j.max_retries
                                      err) }) ∧
        (x.id ≠ jid → x' = x)) st (mark_failed st jid err now)) := by
  constructor
  · intro ops j hj
    refine (run_inv ops [] ?_ ?_).2 j hj
    · simp [UniqueIds]
    · intro x hx
      exact absurd hx (List.not_mem_nil x)
  · intro st jid err now j hu hj hid hge
    have hfind := find?_id_of_uniqueIds hu hj hid
    unfold mark_failed
    rw [hfind]
    dsimp only
    rw [if_neg (by omega)]
    apply forall2_map
    intro a _
    refine ⟨fun haid => ?_, fun haid => ?_⟩
    · simp [haid, failUpdate]
    · simp [haid]

/-- C3 witness: the bound at a one-operation run, and the terminal branch at
a job whose `retry_count` already equals `max_retries`. -/
theorem C3_retry_bound_witness :
    jobA.retry_count ≤ jobA.max_retries ∧
    List.Forall₂ (fun x x' =>
      (x.id = "j1" → x' = { x with status := "failed", failed_at := some 9,
                                   error := some (terminalMsg 2 "e") }) ∧
      (x.id ≠ "j1" → x' = x))
      [{ jobA with retry_count := 2 }]
      (mark_failed [{ jobA with retry_count := 2 }] "j1" "e" 9) :=
  ⟨C3_retry_bound.1 [Op.enq "j1" "nb" "d" "c" 0 0] jobA (by decide),
   C3_retry_bound.2 [{ jobA with retry_count := 2 }] "j1" "e" 9
     { jobA with retry_count := 2 } (by simp [UniqueIds]) (by simp) rfl
     (by decide)⟩

theorem better_irrefl (j : Job) : better j j = false := by
  simp [better]

theorem better_trans {a b c : Job} (h1 : better a b = true)
    (h2 : better b c = true) : better a c = true := by
  simp only [better, Bool.or_eq_true, Bool.and_eq_true, decide_eq_true_eq,
    beq_iff_eq, gt_iff_lt] at h1 h2 ⊢
  omega

theorem better_resolve {a b c : Job} (h1 : better a b = false)
    (h2 : better a c = true) : better b c = true := by
  have h1' : ¬ (better a b = true) := by simp [h1]
  simp only [better, Bool.or_eq_true, Bool.and_eq_true, decide_eq_true_eq,
    beq_iff_eq, gt_iff_lt] at h1' h2 ⊢
  omega

theorem pickBest_go_spec (l : List Job) : ∀ (b r : Job),
    l.foldl
      (fun acc j =>
        match acc with
        | none => some j
        | some b => if better j b then some j else some b)
      (some b) = some r →
    (r = b ∨ r ∈ l) ∧ better b r = false ∧ ∀ k ∈ l, better k r = false := by
  induction l with
  | nil =>
    intro b r h
    simp only [List.foldl_nil, Option.some.injEq] at h
    subst h
    exact ⟨Or.inl rfl, better_irrefl b, by intro k hk; cases hk⟩
  | cons j l ih =>
    intro b r h
    rw [List.foldl_cons] at h
    dsimp only at h
    by_cases hjb : better j b = true
    · rw [if_pos hjb] at h
      obtain ⟨hm, hjr, hk⟩ := ih j r h
      refine ⟨?_, ?_, ?_⟩
      · rcases hm with rfl | hm
        · exact Or.inr (List.mem_cons_self _ _)
        · exact Or.inr (List.mem_cons_of_mem _ hm)
      · by_cases hbr : better b r = true
        · exact absurd (better_trans hjb hbr) (by simp [hjr])
        · simpa using hbr
      · intro k hk'
        rcases List.mem_cons.mp hk' with rfl | hk'
        · exact hjr
        · exact hk k hk'
    · have hjb' : better j b = false := by simpa using hjb
      rw [if_neg hjb] at h
      obtain ⟨hm, hbr, hk⟩ := ih b r h
      refine ⟨?_, hbr, ?_⟩
      · rcases hm with rfl | hm
        · exact Or.inl rfl
        · exact Or.inr (List.mem_cons_of_mem _ hm)
      · intro k hk'
        rcases List.mem_cons.mp hk' with rfl | hk'
        · by_cases hkr : better k r = true
          · exact absurd (better_resolve hjb' hkr) (by simp [hbr])
          · simpa using hkr
        · exact hk k hk'

theorem pickBest_spec {l : List Job} {r : Job} (h : pickBest l = some r) :
    r ∈ l ∧ ∀ k ∈ l, better k r = false := by
  cases l with
  | nil => cases h
  | cons j t =>
    unfold pickBest at h
    rw [List.foldl_cons] at h
    dsimp only at h
    obtain ⟨hm, hjr, hk⟩ := pickBest_go_spec t j r h
    refine ⟨?_, ?_⟩
    · rcases hm with rfl | hm
      · exact List.mem_cons_self _ _
      · exact List.mem_cons_of_mem _ hm
    · intro k hk'
      rcases List.mem_cons.mp hk' with rfl | hk'
      · exact hjr
      · exact hk k hk'

theorem pickBest_go_isSome (l : List Job) : ∀ b : Job,
    ∃ r, l.foldl
      (fun acc j =>
        match acc with
        | none => some j
        | some b => if better j b then some j else some b)
      (some b) = some r := by
  induction l with
  | nil => intro b; exact ⟨b, rfl⟩
  | cons j l ih =>
    intro b
    rw [List.foldl_cons]
    dsimp only
    by_cases hjb : better j b = true
    · rw [if_pos hjb]; exact ih j
    · rw [if_neg hjb]; exact ih b

theorem pickBest_eq_none_iff (l : List Job) : pickBest l = none ↔ l = [] := by
  cases l with
  | nil => simp [pickBest]
  | cons j t =>
    simp only [List.cons_ne_nil, iff_false]
    unfold pickBest
    rw [List.foldl_cons]
    dsimp only
    obtain ⟨r, hr⟩ := pickBest_go_isSome t j
    rw [hr]
    simp

/-- C4: `get_next_job` returns `none` exactly when no row is `queued`;
otherwise it returns the projection of a stored `queued` row over which no
other `queued` row has strictly higher priority or equal priority and
strictly earlier creation.  The function is read-only, so no job record is
modified. -/
theorem C4_get_next_job (st : Store) :
    (get_next_job st = none ↔ ∀ j ∈ st, j.status ≠ "queued") ∧
    (∀ r, get_next_job st = some r →
      ∃ j, j ∈ st ∧ j.status = "queued" ∧ r = toNextJob j ∧
        ∀ k ∈ st, k.status = "queued" →
          ¬(j.priority < k.priority ∨
            (k.priority = j.priority ∧ k.created_at < j.created_at))) := by
  constructor
  · unfold get_next_job get_next_row
    rw [Option.map_eq_none']
    rw [pickBest_eq_none_iff]
    rw [List.filter_eq_nil_iff]
    constructor
    · intro h j hj hq
      exact h j hj (by simp [hq])
    · intro h j hj
      simp [h j hj]
  · intro r hr
    unfold get_next_job at hr
    rcases Option.map_eq_some'.mp hr with ⟨row, hrow, hproj⟩
    unfold get_next_row at hrow
    obtain ⟨hmem, hmax⟩ := pickBest_spec hrow
    rw [List.mem_filter] at hmem
    refine ⟨row, hmem.1, by simpa using hmem.2, hproj.symm, ?_⟩
    intro k hk hkq hbad
    have hkf : k ∈ st.filter (fun j => j.status == "queued") :=
      List.mem_filter.mpr ⟨hk, by simp [hkq]⟩
    have := hmax k hkf
    simp only [better, Bool.or_eq_false_iff, Bool.and_eq_false_iff,
      decide_eq_false_iff_not, gt_iff_lt, not_lt] at this
    rcases hbad with hbad | ⟨hbe, hbc⟩
    · omega
    · rcases this.2 with h | h
      · simp [hbe] at h
      · omega

/-- C4 witness: on a two-row store the higher-priority queued row is
returned. -/
theorem C4_get_next_job_witness :
    ∃ j, j ∈ enqueue (enqueue [] "a" "nb" "d" "c" 0 0) "b" "nb" "d" "c" 5 1 ∧
      j.status = "queued" ∧
      toNextJob { jobA with id := "b", priority := 5, created_at := 1 } =
        toNextJob j ∧
      ∀ k ∈ enqueue (enqueue [] "a" "nb" "d" "c" 0 0) "b" "nb" "d" "c" 5 1,
        k.status = "queued" →
          ¬(j.priority < k.priority ∨
            (k.priority = j.priority ∧ k.created_at < j.created_at)) :=
  (C4_get_next_job (enqueue (enqueue [] "a" "nb" "d" "c" 0 0)
      "b" "nb" "d" "c" 5 1)).2
    (toNextJob { jobA with id := "b", priority := 5, created_at := 1 })
    (by decide)

/-- C5: recovery preserves `retry_count` (and `id`) of every row; with
`timeout_seconds = none` every `processing` row — and only those — is set
back to `queued` with the restart annotation, with a numeric timeout only
`processing` rows whose `started_at` is older than the timeout; the returned
count is the number of rows so transitioned. -/
theorem C5_recover_stuck_jobs (st : Store) (mode : Option Nat) (now : Nat) :
    List.Forall₂ (fun j j' => j'.retry_count = j.retry_count ∧ j'.id = j.id)
      st (recover_stuck_jobs st mode now).1 ∧
    (mode = none →
      List.Forall₂ (fun j j' =>
        (j.status = "processing" →
          j' = { j with status := "queued",
                        error := some "Recovered from server restart" }) ∧
        (j.status ≠ "processing" → j' = j)) st
        (recover_stuck_jobs st mode now).1 ∧
      (recover_stuck_jobs st mode now).2 =
        (st.filter (fun j => j.status == "processing")).length) ∧
    (∀ t, mode = some t →
      List.Forall₂ (fun j j' =>
        (j.status = "processing" → ∀ s, j.started_at = some s →
          s + t < now →
          j' = { j with status := "queued",
                        error := some "Recovered from stuck state" }) ∧
        (¬(j.status = "processing" ∧
            ∃ s, j.started_at = some s ∧ s + t < now) → j' = j)) st
        (recover_stuck_jobs st mode now).1 ∧
      (recover_stuck_jobs st mode now).2 =
        (st.filter (recoverStuckPred t now)).length) := by
  refine ⟨?_, ?_, ?_⟩
  · cases mode with
    | none =>
      apply forall2_map
      intro a _
      by_cases h : recoverAllPred a = true <;> simp [h]
    | some t =>
      apply forall2_map
      intro a _
      by_cases h : recoverStuckPred t now a = true <;> simp [h]
  · rintro rfl
    constructor
    · apply forall2_map
      intro a _
      constructor
      · intro hstat
        have hp : recoverAllPred a = true := by simp [recoverAllPred, hstat]
        rw [if_pos hp]
      · intro hstat
        have hp : ¬ (recoverAllPred a = true) := by
          simpa [recoverAllPred] using hstat
        rw [if_neg hp]
    · show st.countP recoverAllPred =
        (st.filter (fun j => j.status == "processing")).length
      rw [List.countP_eq_length_filter]
      exact rfl
  · rintro t rfl
    constructor
    · apply forall2_map
      intro a _
      constructor
      · intro hstat s hs hlt
        have hp : recoverStuckPred t now a = true := by
          simp [recoverStuckPred, hstat, hs, hlt]
        rw [if_pos hp]
      · intro hnot
        have hp : ¬ (recoverStuckPred t now a = true) := by
          intro hp
          apply hnot
          simp only [recoverStuckPred, Bool.and_eq_true] at hp
          obtain ⟨h1, h2⟩ := hp
          refine ⟨by simpa [recoverAllPred] using h1, ?_⟩
          cases hsa : a.started_at with
          | none => rw [hsa] at h2; cases h2
          | some s =>
            rw [hsa] at h2
            exact ⟨s, rfl, by simpa using h2⟩
        rw [if_neg hp]
    · show st.countP (recoverStuckPred t now) =
        (st.filter (recoverStuckPred t now)).length
      rw [List.countP_eq_length_filter]

/-- C5 witness: startup-mode recovery of a one-row store holding a
`processing` job preserves its `retry_count` and counts one transition. -/
theorem C5_recover_stuck_jobs_witness :
    List.Forall₂ (fun j j' => j'.retry_count = j.retry_count ∧ j'.id = j.id)
      (mark_processing stA "j1" 3)
      (recover_stuck_jobs (mark_processing stA "j1" 3) none 9).1 ∧
    (recover_stuck_jobs (mark_processing stA "j1" 3) none 9).2 = 1 :=
  ⟨(C5_recover_stuck_jobs (mark_processing stA "j1" 3) none 9).1,
   by rw [((C5_recover_stuck_jobs (mark_processing stA "j1" 3) none
        9).2.1 rfl).2]; rfl⟩

theorem clearPred_iff (days now : Nat) (j : Job) :
    clearPred days now j = true ↔
      ((j.status = "completed" ∨ j.status = "failed") ∧
        ((∃ c, j.completed_at = some c ∧ c + days * 86400 < now) ∨
         (∃ f, j.failed_at = some f ∧ f + days * 86400 < now))) := by
  unfold clearPred oldTs
  cases hc : j.completed_at <;> cases hf : j.failed_at <;>
    simp [Bool.or_eq_true, Bool.and_eq_true, beq_iff_eq]

/-- C7 counterexample: a job that was once marked completed (`completed_at`
= 10) and later terminally failed (`failed_at` = 99999) is deleted by
`clear_old_jobs 1` at `now` = 100000 even though its terminal timestamp
`failed_at` is NOT older than the one-day threshold — the DELETE uses an OR
of the two timestamp columns, not the status-matched terminal one. -/
theorem C7_counterexample :
    (clear_old_jobs (mark_failed (mark_failed (mark_failed (mark_completed
        (enqueue [] "j1" "nb" "d" "c" 0 0) "j1" 10) "j1" "e" 20) "j1" "e" 30)
        "j1" "e" 99999) 1 100000).1 = [] ∧
    ((mark_failed (mark_failed (mark_failed (mark_completed
        (enqueue [] "j1" "nb" "d" "c" 0 0) "j1" 10) "j1" "e" 20) "j1" "e" 30)
        "j1" "e" 99999).find? (fun x => x.id == "j1")).map
      (fun x => (x.status, x.completed_at, x.failed_at)) =
      some ("failed", some 10, some 99999) ∧
    ¬ (99999 + 1 * 86400 < 100000) :=
  ⟨rfl, rfl, by decide⟩

/-- C7 amended: `clear_old_jobs` deletes exactly the `completed`/`failed`
rows for which `completed_at` OR `failed_at` (whichever is set) is older
than the threshold — not only the status-matched terminal timestamp —
returns the number deleted, and never touches `queued`/`processing` rows. -/
theorem C7_clear_old_jobs (st : Store) (days now : Nat) :
    (∀ j, j ∈ (clear_old_jobs st days now).1 ↔ j ∈ st ∧
      ¬((j.status = "completed" ∨ j.status = "failed") ∧
        ((∃ c, j.completed_at = some c ∧ c + days * 86400 < now) ∨
         (∃ f, j.failed_at = some f ∧ f + days * 86400 < now)))) ∧
    (clear_old_jobs st days now).1.length + (clear_old_jobs st days now).2 =
      st.length ∧
    (∀ j ∈ st, (j.status = "queued" ∨ j.status = "processing") →
      j ∈ (clear_old_jobs st days now).1) := by
  refine ⟨?_, ?_, ?_⟩
  · intro j
    unfold clear_old_jobs
    rw [List.mem_filter]
    have hb : ((!clearPred days now j) = true) ↔
        ¬ (clearPred days now j = true) := by simp
    rw [hb, clearPred_iff]
  · unfold clear_old_jobs
    rw [← List.countP_eq_length_filter]
    have h := countP_add_countP_not (clearPred days now) st
    omega
  · intro j hj hqs
    unfold clear_old_jobs
    rw [List.mem_filter]
    refine ⟨hj, ?_⟩
    have h : clearPred days now j = false := by
      unfold clearPred
      rcases hqs with h | h <;> simp [h]
    simp [h]

/-- C7 witness: a fresh `queued` job survives `clear_old_jobs` untouched. -/
theorem C7_clear_old_jobs_witness :
    jobA ∈ (clear_old_jobs stA 1 100).1 :=
  (C7_clear_old_jobs stA 1 100).2.2 jobA (by decide) (Or.inl rfl)

/-- C8 counterexample: `mark_processing` restamps `started_at` on every
call, so a retried job's `started_at` changes from 1 to 3 — timestamps are
not written exactly once. -/
theorem C8_counterexample :
    ((mark_processing (mark_failed (mark_processing (enqueue [] "j1" "nb"
        "d" "c" 0 0) "j1" 1) "j1" "e" 2) "j1" 3).find?
      (fun x => x.id == "j1")).map Job.started_at = some (some 3) ∧
    ((mark_processing (enqueue [] "j1" "nb" "d" "c" 0 0) "j1" 1).find?
      (fun x => x.id == "j1")).map Job.started_at = some (some 1) :=
  ⟨rfl, rfl⟩

/-- C8 amended: `created_at` is written once at enqueue and never rewritten
by any operation; `started_at` is (re)stamped by EVERY `mark_processing`
call, `completed_at` by every `mark_completed` call, and `failed_at` only by
`mark_failed`; recovery rewrites no timestamp at all. -/
theorem C8_timestamp_discipline (st : Store) (jid nb doc c err : String)
    (p : Int) (now : Nat) :
    List.Forall₂ (fun j j' => j'.created_at = j.created_at ∧
      j'.completed_at = j.completed_at ∧ j'.failed_at = j.failed_at ∧
      (j.id = jid → j'.started_at = some now) ∧ (j.id ≠ jid → j' = j))
      st (mark_processing st jid now) ∧
    List.Forall₂ (fun j j' => j'.created_at = j.created_at ∧
      j'.started_at = j.started_at ∧ j'.failed_at = j.failed_at ∧
      (j.id = jid → j'.completed_at = some now) ∧ (j.id ≠ jid → j' = j))
      st (mark_completed st jid now) ∧
    List.Forall₂ (fun j j' => j'.created_at = j.created_at ∧
      j'.started_at = j.started_at ∧ j'.completed_at = j.completed_at)
      st (mark_failed st jid err now) ∧
    (∀ mode, List.Forall₂ (fun j j' => j'.created_at = j.created_at ∧
      j'.started_at = j.started_at ∧ j'.completed_at = j.completed_at ∧
      j'.failed_at = j.failed_at) st (recover_stuck_jobs st mode now).1) ∧
    ((∀ j ∈ st, j.id ≠ jid) →
      enqueue st jid nb doc c p now = st ++
        [{ id := jid, notebook_id := nb, document_id := doc, content := c,
           status := "queued", priority := p, retry_count := 0,
           max_retries := 2, created_at := now, started_at := none,
           completed_at := none, failed_at := none, error := none }]) := by
  refine ⟨?_, ?_, ?_, ?_, ?_⟩
  · apply forall2_map
    intro a _
    by_cases h : a.id = jid <;> simp [h, procUpdate]
  · apply forall2_map
    intro a _
    by_cases h : a.id = jid <;> simp [h, compUpdate]
  · unfold mark_failed
    cases st.find? (fun x => x.id == jid) with
    | none =>
      exact List.forall₂_same.mpr (fun a _ => ⟨rfl, rfl, rfl⟩)
    | some row =>
      dsimp only
      split <;> apply forall2_map <;> intro a _ <;>
        by_cases h : a.id = jid <;> simp [h, retryUpdate, failUpdate]
  · intro mode
    cases mode with
    | none =>
      apply forall2_map
      intro a _
      by_cases h : recoverAllPred a = true <;> simp [h]
    | some t =>
      apply forall2_map
      intro a _
      by_cases h : recoverStuckPred t now a = true <;> simp [h]
  · intro h
    unfold enqueue
    rw [if_neg]
    intro hany
    rcases List.any_eq_true.mp hany with ⟨a, ha, haid⟩
    exact h a ha (by simpa using haid)

/-- C8 witness: the timestamp framing at a concrete one-row store; recovery
leaves every timestamp of the row unchanged. -/
theorem C8_timestamp_discipline_witness :
    List.Forall₂ (fun j j' => j'.created_at = j.created_at ∧
      j'.started_at = j.started_at ∧ j'.completed_at = j.completed_at ∧
      j'.failed_at = j.failed_at) stA (recover_stuck_jobs stA none 5).1 :=
  (C8_timestamp_discipline stA "j1" "nb" "d" "c" "e" 0 5).2.2.2.1 none

/-- C9: for every ledger entry stuck in `processing`, the reconciliation
pass distinguishes three cases on the most recent queue job for its
document — `completed`, `failed`, or no record — and in each one rewrites
the entry to `failed` with an error message and `failed_at = now` (never to
a success state); entries not in `processing` are untouched. -/
theorem C9_reconciliation (ledger : List DocEntry) (jobs : Store)
    (now : Nat) :
    List.Forall₂ (fun d d' =>
      (d.status ≠ "processing" → d' = d) ∧
      (d.status = "processing" →
        (latest_job jobs d.doc_id = none →
          d' = { d with status := "failed", error := some noRecordMsg,
                        failed_at := some now }) ∧
        (∀ job, latest_job jobs d.doc_id = some job →
          (job.status = "completed" →
            d' = { d with status := "failed", error := some staleLedgerMsg,
                          failed_at := some now }) ∧
          (job.status = "failed" →
            d' = { d with status := "failed",
                          error := some (pyOr job.error "Unknown error"),
                          failed_at := some now }))))
      ledger (cleanup_stuck_documents ledger jobs now) := by
  unfold cleanup_stuck_documents
  apply forall2_map
  intro d _
  constructor
  · intro hd
    rw [if_neg (by simpa using hd)]
  · intro hd
    rw [if_pos (by simp [hd])]
    constructor
    · intro hnone
      rw [hnone]
      exact rfl
    · intro job hjob
      rw [hjob]
      constructor
      · intro hcomp
        show reconcileEntry d (some job) now = _
        unfold reconcileEntry
        dsimp only
        rw [if_pos (by simp [hcomp])]
      · intro hfail
        show reconcileEntry d (some job) now = _
        unfold reconcileEntry
        dsimp only
        rw [if_neg (by simp [hfail]), if_pos (by simp [hfail])]

/-- C9 witness: a one-entry ledger stuck in `processing` with no queue
record is rewritten to `failed` with the no-record message. -/
theorem C9_reconciliation_witness :
    List.Forall₂ (fun d d' =>
      (d.status ≠ "processing" → d' = d) ∧
      (d.status = "processing" →
        (latest_job [] d.doc_id = none →
          d' = { d with status := "failed", error := some noRecordMsg,
                        failed_at := some 7 }) ∧
        (∀ job, latest_job [] d.doc_id = some job →
          (job.status = "completed" →
            d' = { d with status := "failed", error := some staleLedgerMsg,
                          failed_at := some 7 }) ∧
          (job.status = "failed" →
            d' = { d with status := "failed",
                          error := some (pyOr job.error "Unknown error"),
                          failed_at := some 7 }))))
      [{ doc_id := "d", filename := "f", status := "processing",
         error := none, failed_at := none }]
      (cleanup_stuck_documents
        [{ doc_id := "d", filename := "f", status := "processing",
           error := none, failed_at := none }] [] 7) :=
  C9_reconciliation
    [{ doc_id := "d", filename := "f", status := "processing",
       error := none, failed_at := none }] [] 7

end DocQueue
